import Mathlib

/-!
Verification development for the VMC post-processing module
`tools/vmc_postproc/hl.py` (functions `get_eig_sys` and `get_sq_ampl`).

The module is shallowly embedded: the external collaborators
(`load.get_quantity`, `load.get_wav`, `load.get_attr`, `proc.fermisigns`,
`proc.geneigh`, `stagflux.spinops`, `sfpnxphz.spinops`) are fields of an
`Env` record, and the two public functions are translated line by line.
Complex machine numbers are modelled by exact Gaussian rationals `GRat`
(pairs of rationals with complex multiplication); real arrays by
rational-valued functions over `Fin` index types.
-/

/-- Exact model of a complex number: a pair of rationals (real and
imaginary part), standing in for the NumPy complex scalars used by the
source. -/
@[ext] structure GRat where
  re : ℚ
  im : ℚ
deriving DecidableEq

namespace GRat

instance : Zero GRat := ⟨⟨0, 0⟩⟩

instance : One GRat := ⟨⟨1, 0⟩⟩

instance : Add GRat := ⟨fun a b => ⟨a.re + b.re, a.im + b.im⟩⟩

instance : Neg GRat := ⟨fun a => ⟨-a.re, -a.im⟩⟩

instance : Mul GRat := ⟨fun a b => ⟨a.re * b.re - a.im * b.im, a.re * b.im + a.im * b.re⟩⟩

instance : AddCommMonoid GRat where
  add := (· + ·)
  zero := 0
  add_assoc a b c := GRat.ext (add_assoc a.re b.re c.re) (add_assoc a.im b.im c.im)
  zero_add a := GRat.ext (zero_add a.re) (zero_add a.im)
  add_zero a := GRat.ext (add_zero a.re) (add_zero a.im)
  add_comm a b := GRat.ext (add_comm a.re b.re) (add_comm a.im b.im)
  nsmul := nsmulRec

/-- Complex conjugation, the model of `np.conj` on a scalar. -/
def conj (a : GRat) : GRat := ⟨a.re, -a.im⟩

/-- Squared magnitude: the exact value of `abs(z)**2` for a complex
scalar `z` (the float `abs` followed by squaring computes exactly
`re² + im²` in real arithmetic). -/
def normSq (a : GRat) : ℚ := a.re * a.re + a.im * a.im

end GRat

/-- Complex vector of length `d` (one NumPy 1-d array). -/
abbrev CVec (d : ℕ) := Fin d → GRat

/-- Complex `d × d` matrix. -/
abbrev CMat (d : ℕ) := Fin d → Fin d → GRat

/-- Batch of `ns` complex `d × d` matrices (a NumPy array of shape
`(ns, d, d)`). -/
abbrev CBatch (ns d : ℕ) := Fin ns → CMat d

/-- The run-attribute mapping returned by `load.get_attr`, restricted to
the keys this module reads: the `sfpnxphz_wav`, `stagflux_wav` and
`channel` entries of `params`.  All other attributes
are only passed through to the external collaborators, which are fields
of `Env` and may close over anything they need. -/
structure Attr where
  sfpnxphz_wav : Bool
  stagflux_wav : Bool
  channel : String
deriving DecidableEq

/-- The external collaborators of `hl.py` (the `load`, `proc`,
`stagflux` and `sfpnxphz` modules), treated as an opaque environment.
`W` is the type of wavefunction states returned by `load.get_wav`.  The
sample count `ns` and basis dimension `d` are fixed at the type level;
`load.get_quantity` returns the combined array of shape
`(ns, 2·d, d)` (H stacked on O along the second axis, so that axis has
length `d + d`). -/
structure Env (W : Type) (ns d : ℕ) where
  get_quantity : List String → Fin ns → Fin (d + d) → Fin d → GRat
  get_wav : String → W
  get_attr : String → Attr
  fermisigns : W → Attr → CVec d
  geneigh : CMat d → CMat d → ℚ → (Fin d → ℚ) × CMat d
  stagflux_spinops : Attr → ℕ → CVec d
  sfpnxphz_spinops : Attr → ℕ → CVec d

/-- The quadruple returned by `get_eig_sys`. -/
structure EigSys (ns d : ℕ) where
  H : CBatch ns d
  O : CBatch ns d
  evals : Fin ns → Fin d → ℚ
  evecs : CBatch ns d

/-- The errors `hl.py` can raise: `IndexError` from `filenames[0]` on an
empty list, `AttributeError` from `mo.groups()` when the filename regex
does not match (`patternMismatch`), the two explicit `RuntimeError`s of
`get_sq_ampl`, and the `TypeError` NumPy raises when `np.einsum` is
handed `None` for an array operand. -/
inductive Err where
  | indexError
  | patternMismatch
  | unimplementedWav
  | channelNotUnderstood
  | typeError
deriving DecidableEq

/-- Slice `HO[:, :HO.shape[1]/2, :]` of `hl.py` line 12: the first `d`
rows of each sample of the combined array. -/
def splitH (HO : Fin ns → Fin (d + d) → Fin d → GRat) : CBatch ns d :=
  fun s i j => HO s (Fin.castAdd d i) j

/-- Slice `HO[:, HO.shape[1]/2:, :]` of `hl.py` line 13: the last `d`
rows of each sample of the combined array. -/
def splitO (HO : Fin ns → Fin (d + d) → Fin d → GRat) : CBatch ns d :=
  fun s i j => HO s (Fin.natAdd d i) j

/-- Model of `np.diag(v)`. -/
def diagMat (v : CVec d) : CMat d := fun i j => if i = j then v i else 0

/-- Model of the batched triple product
`np.einsum` with subscripts `ij,kjl,lm->kim` over `np.diag(fs)`, `B`, `np.diag(fs)` on
`hl.py` lines 20-21: the fermion-sign similarity transform applied to
every sample of the batch. -/
def signTransform (fs : CVec d) (B : CBatch ns d) : CBatch ns d :=
  fun k i m => ∑ j, ∑ l, diagMat fs i j * (B k j l * diagMat fs l m)

/-- The characters of the literal part `-ProjHeis\.h5` of the regex on
`hl.py` line 16. -/
def litP : List Char := "-ProjHeis.h5".data

/-- The characters of the replacement suffix `-WaveFunction.h5` of
`hl.py` line 17. -/
def wavLit : List Char := "-WaveFunction.h5".data

/-- Model of `re.search` with the raw pattern `(.*/[0-9]+)-ProjHeis\.h5` restricted to
identifiers without newline characters: the leftmost match starts at
index 0 with the greedy `.*` pushing the `/` as far right as possible,
so the captured group is the prefix of `s` running through the
rightmost `/` that is followed by a nonempty digit run and then the
literal `-ProjHeis.h5`.  Returns the captured group `(.*/[0-9]+)`, or
`none` when the regex does not match (in which case `mo.groups()`
raises on line 17). -/
def searchSlash : List Char → Option (List Char)
  | [] => none
  | c :: rest =>
    match searchSlash rest with
    | some g => some (c :: g)
    | none =>
      if c = '/' then
        let ds := rest.takeWhile Char.isDigit
        if ds = [] then none
        else if (rest.drop ds.length).take litP.length = litP then some (c :: ds)
        else none
      else none

/-- Lines 16-17 of `hl.py`: derive the wavefunction filename from the
data filename: the captured group with `-WaveFunction.h5` appended; `none` models the
`AttributeError` raised when the regex finds no match. -/
def deriveWav (s : String) : Option String :=
  (searchSlash s.data).map (fun g => String.mk (g ++ wavLit))

/-- Shallow embedding of `get_eig_sys` (`hl.py` lines 9-27).  The
`filenames` argument is the already-normalised list (line 10-11 wraps a
bare identifier into a singleton list).  `wav = none` models the `None`
default; a supplied empty string is also falsy under the `if not wav:`
test on line 14, so both fall back to filename derivation.  `nsamp` is
the type-level `ns` of the environment.  An empty `filenames` list hits
`filenames[0]` and is modelled as `indexError`. -/
def get_eig_sys (env : Env W ns d) (filenames : List String)
    (wav : Option String) (tol : ℚ) : Except Err (EigSys ns d) :=
  match filenames with
  | [] => Except.error Err.indexError
  | f0 :: _ =>
    let HO := env.get_quantity filenames
    let H0 := splitH HO
    let O0 := splitO HO
    let dw : Except Err String :=
      match deriveWav f0 with
      | some w => Except.ok w
      | none => Except.error Err.patternMismatch
    let wnameE : Except Err String :=
      match wav with
      | none => dw
      | some w => if w = "" then dw else Except.ok w
    wnameE.bind fun w =>
      let fs := env.fermisigns (env.get_wav w) (env.get_attr f0)
      let H := signTransform fs H0
      let O := signTransform fs O0
      Except.ok ⟨H, O, fun s => (env.geneigh (H s) (O s) tol).1,
                       fun s => (env.geneigh (H s) (O s) tol).2⟩

/-- Model of the contraction
`np.einsum` with subscripts `i,sij,sjk->sk` over `np.conj(p)`, `O`, `V` on `hl.py`
lines 44, 46 and 52: the complex value at sample `s`, eigen-index `k`. -/
def einsumC (p : CVec d) (O V : CBatch ns d) : Fin ns → Fin d → GRat :=
  fun s k => ∑ i, ∑ j, GRat.conj (p i) * (O s i j * V s j k)

/-- One returned amplitude array: `abs(np.einsum(...))**2`, the exact
squared magnitude of the contraction. -/
def sqAmpl (p : CVec d) (O V : CBatch ns d) : Fin ns → Fin d → ℚ :=
  fun s k => GRat.normSq (einsumC p O V s k)

/-- Modelled from the spec: the numeric contract of section 4.2, the
squared magnitude `| Σ_i Σ_j conj(p_i) · O[s,i,j] · V[s,j,k] |²`,
written independently as `re (conj z · z)` of the double sum `z`, to be
compared with the code-side `sqAmpl`. -/
def specSqAmpl (p : CVec d) (O V : CBatch ns d) (s : Fin ns) (k : Fin d) : ℚ :=
  (GRat.conj (∑ i, ∑ j, GRat.conj (p i) * (O s i j * V s j k)) *
    (∑ i, ∑ j, GRat.conj (p i) * (O s i j * V s j k))).re

/-- Return value of `get_sq_ampl`: a single per-sample amplitude array
(`stagflux` family), the 3-element list of the `sfpnxphz` family, or
the implicit Python `None` return (unreachable: the unsupported-family
`RuntimeError` is raised before the final `if/elif` can fall through). -/
inductive SqOut (ns d : ℕ) where
  | single : (Fin ns → Fin d → ℚ) → SqOut ns d
  | triple : (Fin 3 → Fin ns → Fin d → ℚ) → SqOut ns d
  | pyNone : SqOut ns d

/-- NumPy raises a `TypeError` when `np.einsum` receives `None` where
an array operand is expected; this guard models fetching an operand
that may have been left at its `None` default. -/
def reqArr : Option α → Except Err α
  | some a => Except.ok a
  | none => Except.error Err.typeError

/-- Lines 33-53 of `hl.py` after the eigensystem is settled: module
selection by the two wavefunction-family flags (`sfpnxphz_wav` checked
first), then the family branch.  Note the second branch tests
`stagflux_wav` first, so with both flags set the `sfpnxphz` operator
vectors are fed through the `stagflux` channel logic. -/
def ampl_body (env : Env W ns d) (params : Attr)
    (Oo Vo : Option (CBatch ns d)) : Except Err (SqOut ns d) :=
  let pkqE : Except Err (ℕ → CVec d) :=
    if params.sfpnxphz_wav then Except.ok (env.sfpnxphz_spinops params)
    else if params.stagflux_wav then Except.ok (env.stagflux_spinops params)
    else Except.error Err.unimplementedWav
  pkqE.bind fun pkq =>
    if params.stagflux_wav then
      if params.channel = "trans" then
        (reqArr Oo).bind fun O => (reqArr Vo).bind fun V =>
          Except.ok (SqOut.single (sqAmpl (pkq 1) O V))
      else if params.channel = "long" then
        (reqArr Oo).bind fun O => (reqArr Vo).bind fun V =>
          Except.ok (SqOut.single (sqAmpl (pkq 2) O V))
      else Except.error Err.channelNotUnderstood
    else if params.sfpnxphz_wav then
      (reqArr Oo).bind fun O => (reqArr Vo).bind fun V =>
        Except.ok (SqOut.triple (fun a => sqAmpl (pkq a.val) O V))
    else Except.ok SqOut.pyNone

/-- Shallow embedding of `get_sq_ampl` (`hl.py` lines 28-53),
instrumented: the boolean component records whether the eigensystem
builder `get_eig_sys` was invoked.  The `if H==None:` test on line 31
is modelled as `H` being absent, the behaviour of the code under its
contemporaneous (Python 2 era) NumPy, where comparing an array against
`None` yields the scalar `False`.  The `evals` argument is accepted and
never read, exactly as in the source.  In the recompute branch the
inner `[]` case is unreachable (`get_eig_sys` already fails on an empty
list before the bind). -/
def get_sq_amplT (env : Env W ns d) (filenames : List String)
    (wav : Option String) (tol : ℚ)
    (H O : Option (CBatch ns d)) (evals : Option (Fin ns → Fin d → ℚ))
    (evecs : Option (CBatch ns d)) : Bool × Except Err (SqOut ns d) :=
  match H with
  | none =>
    (true, (get_eig_sys env filenames wav tol).bind fun e =>
      match filenames with
      | [] => Except.error Err.indexError
      | f0 :: _ => ampl_body env (env.get_attr f0) (some e.O) (some e.evecs))
  | some _ =>
    (false, match filenames with
      | [] => Except.error Err.indexError
      | f0 :: _ => ampl_body env (env.get_attr f0) O evecs)

/-- Shallow embedding of `get_sq_ampl`: the value returned to the
caller (the instrumentation of `get_sq_amplT` dropped). -/
def get_sq_ampl (env : Env W ns d) (filenames : List String)
    (wav : Option String) (tol : ℚ)
    (H O : Option (CBatch ns d)) (evals : Option (Fin ns → Fin d → ℚ))
    (evecs : Option (CBatch ns d)) : Except Err (SqOut ns d) :=
  (get_sq_amplT env filenames wav tol H O evals evecs).2

/-- The `stagflux`-style channel branch (`hl.py` lines 43-48) as a
value: amplitude from `p1` for channel `trans`, from `p2` for channel
`long`, the unrecognized-channel `RuntimeError` otherwise. -/
def chanResult (ch : String) (p1 p2 : CVec d) (O V : CBatch ns d) :
    Except Err (SqOut ns d) :=
  if ch = "trans" then Except.ok (SqOut.single (sqAmpl p1 O V))
  else if ch = "long" then Except.ok (SqOut.single (sqAmpl p2 O V))
  else Except.error Err.channelNotUnderstood

/-- Concrete environment with both wavefunction-family flags false
(`sfpnxphz_wav = false`, `stagflux_wav = false`). -/
def env0 : Env Unit 1 1 :=
  ⟨fun _ _ _ _ => 0, fun _ => (), fun _ => ⟨false, false, "trans"⟩,
   fun _ _ _ => 1, fun _ _ _ => (fun _ => 0, fun _ _ => 0),
   fun _ n _ => ⟨(n : ℚ), 1⟩, fun _ n _ => ⟨(n : ℚ), 2⟩⟩

/-- Concrete environment of the `stagflux` family
(`sfpnxphz_wav = false`, `stagflux_wav = true`, channel `trans`). -/
def env1 : Env Unit 1 1 :=
  ⟨fun _ _ _ _ => 0, fun _ => (), fun _ => ⟨false, true, "trans"⟩,
   fun _ _ _ => 1, fun _ _ _ => (fun _ => 0, fun _ _ => 0),
   fun _ n _ => ⟨(n : ℚ), 1⟩, fun _ n _ => ⟨(n : ℚ), 2⟩⟩

/-- Concrete environment with both wavefunction-family flags true and
channel `long`. -/
def env3 : Env Unit 1 1 :=
  ⟨fun _ _ _ _ => 0, fun _ => (), fun _ => ⟨true, true, "long"⟩,
   fun _ _ _ => 1, fun _ _ _ => (fun _ => 0, fun _ _ => 0),
   fun _ n _ => ⟨(n : ℚ), 1⟩, fun _ n _ => ⟨(n : ℚ), 2⟩⟩

/-- The eigensystem `get_eig_sys` computes in `env1` for the file list
`["f"]` and explicit wavefunction source `"w"`. -/
def e1 : EigSys 1 1 :=
  match get_eig_sys env1 ["f"] (some "w") 0 with
  | Except.ok e => e
  | Except.error _ => ⟨fun _ _ _ => 0, fun _ _ _ => 0, fun _ _ => 0, fun _ _ _ => 0⟩

/-- The output `get_sq_ampl` produces in `env1` for the file list
`["f"]` with no precomputed eigensystem. -/
def out1 : SqOut 1 1 :=
  match get_sq_ampl env1 ["f"] (some "w") 0 none none none none with
  | Except.ok o => o
  | Except.error _ => SqOut.pyNone

/-- Concrete ±1 sign vector used to instantiate the sign-transform
involution. -/
def fsW : CVec 1 := fun _ => -1

/-- Concrete one-sample batch used to instantiate the sign-transform
involution. -/
def bW : CBatch 1 1 := fun _ _ _ => ⟨2, 3⟩

/-- Concrete path prefix for instantiating the filename derivation. -/
def pW : List Char := ['d', 'i', 'r']

/-- Concrete digit run for instantiating the filename derivation. -/
def dsW : List Char := ['1', '2']

namespace GRat

@[simp] lemma zero_re : (0 : GRat).re = 0 := rfl

@[simp] lemma zero_im : (0 : GRat).im = 0 := rfl

@[simp] lemma one_re : (1 : GRat).re = 1 := rfl

@[simp] lemma one_im : (1 : GRat).im = 0 := rfl

@[simp] lemma add_re (a b : GRat) : (a + b).re = a.re + b.re := rfl

@[simp] lemma add_im (a b : GRat) : (a + b).im = a.im + b.im := rfl

@[simp] lemma neg_re (a : GRat) : (-a).re = -a.re := rfl

@[simp] lemma neg_im (a : GRat) : (-a).im = -a.im := rfl

@[simp] lemma mul_re (a b : GRat) : (a * b).re = a.re * b.re - a.im * b.im := rfl

@[simp] lemma mul_im (a b : GRat) : (a * b).im = a.re * b.im + a.im * b.re := rfl

@[simp] lemma conj_re (a : GRat) : (conj a).re = a.re := rfl

@[simp] lemma conj_im (a : GRat) : (conj a).im = -a.im := rfl

@[simp] lemma zero_mul (a : GRat) : (0 : GRat) * a = 0 := by
  ext <;> simp

@[simp] lemma mul_zero (a : GRat) : a * (0 : GRat) = 0 := by
  ext <;> simp

lemma normSq_nonneg (a : GRat) : 0 ≤ normSq a :=
  add_nonneg (mul_self_nonneg _) (mul_self_nonneg _)

lemma conj_mul_re (a : GRat) : (conj a * a).re = normSq a := by
  simp [normSq]

end GRat

lemma specSqAmpl_eq_sqAmpl (p : CVec d) (O V : CBatch ns d) (s : Fin ns) (k : Fin d) :
    specSqAmpl p O V s k = sqAmpl p O V s k := by
  simp [specSqAmpl, sqAmpl, einsumC, GRat.normSq]

lemma signTransform_apply (fs : CVec d) (B : CBatch ns d) (k : Fin ns) (i m : Fin d) :
    signTransform fs B k i m = fs i * (B k i m * fs m) := by
  simp [signTransform, diagMat, ite_mul, mul_ite, Finset.sum_ite_eq, Finset.sum_ite_eq']

lemma takeWhile_append_of_all {p : Char → Bool} (ds l : List Char)
    (h : ∀ c ∈ ds, p c = true) :
    (ds ++ l).takeWhile p = ds ++ l.takeWhile p := by
  induction ds with
  | nil => simp
  | cons c t ih =>
    have hc : p c = true := h c (List.mem_cons_self c t)
    simp [List.takeWhile_cons, hc,
      ih (fun x hx => h x (List.mem_cons_of_mem _ hx))]

lemma searchSlash_none_of_no_slash (l : List Char) (h : ∀ c ∈ l, c ≠ '/') :
    searchSlash l = none := by
  induction l with
  | nil => rfl
  | cons c rest ih =>
    have hr : searchSlash rest = none :=
      ih (fun x hx => h x (List.mem_cons_of_mem _ hx))
    have hc : c ≠ '/' := h c (List.mem_cons_self c rest)
    simp [searchSlash, hr, hc]

lemma searchSlash_trailing (p ds : List Char) (h1 : ds ≠ [])
    (h2 : ∀ c ∈ ds, c.isDigit = true) :
    searchSlash (p ++ '/' :: (ds ++ litP)) = some (p ++ '/' :: ds) := by
  induction p with
  | nil =>
    have hno : searchSlash (ds ++ litP) = none := by
      apply searchSlash_none_of_no_slash
      intro c hc
      rcases List.mem_append.mp hc with h | h
      · intro he
        have hd := h2 c h
        rw [he] at hd
        exact absurd hd (by decide)
      · intro he
        subst he
        revert h
        decide
    have hds : (ds ++ litP).takeWhile Char.isDigit = ds := by
      rw [takeWhile_append_of_all _ _ h2,
        show litP.takeWhile Char.isDigit = [] from by decide, List.append_nil]
    have hdrop : (ds ++ litP).drop ds.length = litP := List.drop_left ds litP
    simp [searchSlash, hno, hds, hdrop, h1]
  | cons c pt ih =>
    simp only [List.cons_append, searchSlash, List.append_eq, ih]

lemma ampl_body_neither (env : Env W ns d) (params : Attr)
    (Oo Vo : Option (CBatch ns d))
    (h1 : params.sfpnxphz_wav = false) (h2 : params.stagflux_wav = false) :
    ampl_body env params Oo Vo = Except.error Err.unimplementedWav := by
  simp [ampl_body, Except.bind, h1, h2]

lemma ampl_body_stagflux (env : Env W ns d) (params : Attr)
    (O V : CBatch ns d)
    (h1 : params.sfpnxphz_wav = false) (h2 : params.stagflux_wav = true) :
    ampl_body env params (some O) (some V) =
      chanResult params.channel (env.stagflux_spinops params 1)
        (env.stagflux_spinops params 2) O V := by
  simp [ampl_body, chanResult, reqArr, Except.bind, h1, h2]

lemma ampl_body_both (env : Env W ns d) (params : Attr)
    (O V : CBatch ns d)
    (h1 : params.sfpnxphz_wav = true) (h2 : params.stagflux_wav = true) :
    ampl_body env params (some O) (some V) =
      chanResult params.channel (env.sfpnxphz_spinops params 1)
        (env.sfpnxphz_spinops params 2) O V := by
  simp [ampl_body, chanResult, reqArr, Except.bind, h1, h2]

lemma ampl_body_cases (env : Env W ns d) (params : Attr)
    (Oo Vo : Option (CBatch ns d)) (out : SqOut ns d)
    (h : ampl_body env params Oo Vo = Except.ok out) :
    ∃ O V, Oo = some O ∧ Vo = some V ∧
      ((params.stagflux_wav = true ∧
        (params.channel = "trans" ∨ params.channel = "long") ∧
        out = SqOut.single (sqAmpl
          ((if params.sfpnxphz_wav then env.sfpnxphz_spinops params
            else env.stagflux_spinops params)
           (if params.channel = "trans" then 1 else 2)) O V)) ∨
       (params.stagflux_wav = false ∧ params.sfpnxphz_wav = true ∧
        out = SqOut.triple (fun a => sqAmpl (env.sfpnxphz_spinops params a.val) O V))) := by
  cases hsf : params.sfpnxphz_wav <;> cases hst : params.stagflux_wav <;>
    cases Oo <;> cases Vo <;>
      by_cases hch : params.channel = "trans" <;>
        by_cases hch2 : params.channel = "long" <;>
          simp_all [ampl_body, reqArr, Except.bind]

lemma get_sq_amplT_some (env : Env W ns d) (f0 : String) (fr : List String)
    (wav : Option String) (tol : ℚ) (hv : CBatch ns d)
    (Oo : Option (CBatch ns d)) (eo : Option (Fin ns → Fin d → ℚ))
    (Vo : Option (CBatch ns d)) :
    get_sq_amplT env (f0 :: fr) wav tol (some hv) Oo eo Vo =
      (false, ampl_body env (env.get_attr f0) Oo Vo) := rfl

lemma get_sq_amplT_none (env : Env W ns d) (f0 : String) (fr : List String)
    (wav : Option String) (tol : ℚ)
    (Oo : Option (CBatch ns d)) (eo : Option (Fin ns → Fin d → ℚ))
    (Vo : Option (CBatch ns d)) :
    get_sq_amplT env (f0 :: fr) wav tol none Oo eo Vo =
      (true, (get_eig_sys env (f0 :: fr) wav tol).bind fun e =>
        ampl_body env (env.get_attr f0) (some e.O) (some e.evecs)) := rfl

lemma get_eig_sys_ok_shape (env : Env W ns d) (f0 : String) (fr : List String)
    (wav : Option String) (tol : ℚ) (e : EigSys ns d)
    (he : get_eig_sys env (f0 :: fr) wav tol = Except.ok e) :
    ∃ w : String,
      e.H = signTransform (env.fermisigns (env.get_wav w) (env.get_attr f0))
              (splitH (env.get_quantity (f0 :: fr))) ∧
      e.O = signTransform (env.fermisigns (env.get_wav w) (env.get_attr f0))
              (splitO (env.get_quantity (f0 :: fr))) := by
  cases wav with
  | none =>
    cases hd : deriveWav f0 with
    | none => simp [get_eig_sys, hd, Except.bind] at he
    | some w =>
      refine ⟨w, ?_⟩
      simp [get_eig_sys, hd, Except.bind] at he
      simp [← he]
  | some w0 =>
    by_cases hw : w0 = ""
    · cases hd : deriveWav f0 with
      | none => simp [get_eig_sys, hd, hw, Except.bind] at he
      | some w =>
        refine ⟨w, ?_⟩
        simp [get_eig_sys, hd, hw, Except.bind] at he
        simp [← he]
    · refine ⟨w0, ?_⟩
      simp [get_eig_sys, hw, Except.bind] at he
      simp [← he]

/-- C5: for every loaded combined array of shape `(samples, 2d, d)`,
`get_eig_sys` splits it in half along its second axis, taking the first
`d` rows of each sample as the Hamiltonian batch and the last `d` rows
as the overlap batch; the batches `get_eig_sys` then works with (and
returns, sign-transformed) are exactly these two halves. -/
theorem eig_sys_split_halves (env : Env W ns d) (f0 : String) (fr : List String)
    (wav : Option String) (tol : ℚ) (e : EigSys ns d)
    (he : get_eig_sys env (f0 :: fr) wav tol = Except.ok e) :
    (∀ (s : Fin ns) (i j : Fin d),
      splitH (env.get_quantity (f0 :: fr)) s i j =
        env.get_quantity (f0 :: fr) s
          ⟨i.val, Nat.lt_of_lt_of_le i.isLt (Nat.le_add_right d d)⟩ j) ∧
    (∀ (s : Fin ns) (i j : Fin d),
      splitO (env.get_quantity (f0 :: fr)) s i j =
        env.get_quantity (f0 :: fr) s ⟨d + i.val, Nat.add_lt_add_left i.isLt d⟩ j) ∧
    (∃ fs : CVec d,
      e.H = signTransform fs (splitH (env.get_quantity (f0 :: fr))) ∧
      e.O = signTransform fs (splitO (env.get_quantity (f0 :: fr)))) := by
  refine ⟨fun s i j => rfl, fun s i j => rfl, ?_⟩
  obtain ⟨w, hH, hO⟩ := get_eig_sys_ok_shape env f0 fr wav tol e he
  exact ⟨env.fermisigns (env.get_wav w) (env.get_attr f0), hH, hO⟩

/-- C6: applying the fermion-sign similarity transform
`sign · M · sign` (the batched triple product of `hl.py` lines 20-21)
twice with the same ±1-valued sign vector returns the original batch of
matrices. -/
theorem sign_transform_involutive (fs : CVec d) (B : CBatch ns d)
    (h : ∀ i, fs i = 1 ∨ fs i = -1) :
    signTransform fs (signTransform fs B) = B := by
  funext k i m
  rw [signTransform_apply, signTransform_apply]
  rcases h i with h1 | h1 <;> rcases h m with h2 | h2 <;>
    rw [h1, h2] <;> ext <;> simp

/-- C10: a wavefunction argument that is the empty string is falsy
under the `if not wav:` test of `hl.py` line 14, so `get_eig_sys`
ignores it and derives the wavefunction source from the first
data-source identifier exactly as when no argument is given. -/
theorem eig_sys_empty_wav_derives (env : Env W ns d) (fns : List String) (tol : ℚ) :
    get_eig_sys env fns (some "") tol = get_eig_sys env fns none tol := by
  cases fns with
  | nil => rfl
  | cons f0 fr => simp [get_eig_sys]

/-- C7 counterexample: the identifier `"a-ProjHeis.h5"` carries the
trailing `-ProjHeis.h5` suffix, so the claim says the wavefunction
source is derived by suffix replacement; but the regex of `hl.py`
line 16 also demands a `/`-plus-digit-run before the suffix, so
derivation fails and `get_eig_sys` errors out instead. -/
theorem deriveWav_trailing_counterexample :
    "a-ProjHeis.h5" = "a" ++ "-ProjHeis.h5" ∧
    deriveWav "a-ProjHeis.h5" = none ∧
    get_eig_sys env0 ["a-ProjHeis.h5"] none 0 = Except.error Err.patternMismatch :=
  ⟨rfl, rfl, rfl⟩

/-- C7 amended: with no wavefunction source supplied, `get_eig_sys`
derives one by regex search, not plain suffix replacement: the first
identifier must contain `/` followed by a nonempty digit run followed
by `-ProjHeis.h5`; the wavefunction source is the prefix of the identifier
through the (rightmost such) digit run with `-WaveFunction.h5`
appended, and the call fails with the pattern error when no such
substring exists.  (The regex model assumes identifiers free of newline
characters, hence the hypothesis on `p`.) -/
theorem deriveWav_search_amended (env : Env W ns d) (fns : List String) (tol : ℚ)
    (p ds : List Char) (h1 : ds ≠ []) (h2 : ∀ c ∈ ds, c.isDigit = true)
    (h3 : ∀ c ∈ p, c ≠ '\n') :
    deriveWav (String.mk (p ++ '/' :: (ds ++ litP))) =
      some (String.mk ((p ++ '/' :: ds) ++ wavLit)) ∧
    get_eig_sys env (String.mk (p ++ '/' :: (ds ++ litP)) :: fns) none tol =
      get_eig_sys env (String.mk (p ++ '/' :: (ds ++ litP)) :: fns)
        (some (String.mk ((p ++ '/' :: ds) ++ wavLit))) tol ∧
    (∀ (g0 : String) (fns0 : List String), deriveWav g0 = none →
      get_eig_sys env (g0 :: fns0) none tol = Except.error Err.patternMismatch) := by
  have hs : searchSlash (p ++ '/' :: (ds ++ litP)) = some (p ++ '/' :: ds) :=
    searchSlash_trailing p ds h1 h2
  have hder : deriveWav (String.mk (p ++ '/' :: (ds ++ litP))) =
      some (String.mk ((p ++ '/' :: ds) ++ wavLit)) := by
    simp [deriveWav, hs]
  refine ⟨hder, ?_, ?_⟩
  · have hne : String.mk ((p ++ '/' :: ds) ++ wavLit) ≠ "" := by
      intro hcontra
      have hdata := congrArg String.data hcontra
      simp [wavLit] at hdata
    simp [get_eig_sys, hder, hne]
  · intro g0 fns0 hg
    simp [get_eig_sys, hg, Except.bind]

/-- C2 counterexample: a call with both family flags false and no
precomputed eigensystem.  The instrumentation bit is `true`: the
eigensystem builder ran before the unsupported-configuration error was
raised, contradicting the claim that no eigendecomposition work
precedes the raise. -/
theorem sq_ampl_neither_flag_counterexample :
    (env0.get_attr "f").stagflux_wav = false ∧
    (env0.get_attr "f").sfpnxphz_wav = false ∧
    get_sq_amplT env0 ["f"] (some "w") 0 none none none none =
      (true, Except.error Err.unimplementedWav) :=
  ⟨rfl, rfl, rfl⟩

/-- C2 amended: with both `stagflux_wav` and `sfpnxphz_wav` false,
`get_sq_ampl` raises the unsupported-configuration error, but when no
precomputed `H` is supplied the eigensystem builder is invoked first
(line 31-32 precedes the flag check), the raise following only if the
builder itself succeeds; the raise precedes any eigendecomposition
exactly when a precomputed `H` is passed. -/
theorem sq_ampl_neither_flag_raises_after_eig (env : Env W ns d)
    (f0 : String) (fr : List String) (wav : Option String) (tol : ℚ)
    (Oo : Option (CBatch ns d)) (eo : Option (Fin ns → Fin d → ℚ))
    (Vo : Option (CBatch ns d))
    (h1 : (env.get_attr f0).sfpnxphz_wav = false)
    (h2 : (env.get_attr f0).stagflux_wav = false) :
    get_sq_amplT env (f0 :: fr) wav tol none Oo eo Vo =
      (true, (get_eig_sys env (f0 :: fr) wav tol).bind
        fun e => Except.error Err.unimplementedWav) ∧
    (∀ hv : CBatch ns d,
      get_sq_amplT env (f0 :: fr) wav tol (some hv) Oo eo Vo =
        (false, Except.error Err.unimplementedWav)) := by
  constructor
  · rw [get_sq_amplT_none]
    cases hE : get_eig_sys env (f0 :: fr) wav tol <;>
      simp [hE, Except.bind, ampl_body_neither env _ _ _ h1 h2]
  · intro hv
    rw [get_sq_amplT_some, ampl_body_neither env _ _ _ h1 h2]

/-- C3: on inputs where the no-precomputation call succeeds, passing
the eigensystem that `get_eig_sys` returns for the same data makes
`get_sq_ampl` return the identical output, and the instrumentation bit
is `false`: the eigensystem builder is not re-invoked. -/
theorem sq_ampl_precomputed_identical (env : Env W ns d)
    (f0 : String) (fr : List String) (wav : Option String) (tol : ℚ)
    (e : EigSys ns d) (out : SqOut ns d)
    (he : get_eig_sys env (f0 :: fr) wav tol = Except.ok e)
    (ho : get_sq_ampl env (f0 :: fr) wav tol none none none none = Except.ok out) :
    get_sq_amplT env (f0 :: fr) wav tol
      (some e.H) (some e.O) (some e.evals) (some e.evecs) = (false, Except.ok out) := by
  have hb : ampl_body env (env.get_attr f0) (some e.O) (some e.evecs) = Except.ok out := by
    simpa [get_sq_ampl, get_sq_amplT_none, he, Except.bind] using ho
  rw [get_sq_amplT_some, hb]

/-- C4: for a `stagflux`-family run (`stagflux_wav` true,
`sfpnxphz_wav` false), `get_sq_ampl` contracts operator vector index 1
for channel `trans` and index 2 for channel `long`, and raises the
unrecognized-channel error for every other channel value — both when
the eigensystem is precomputed and when it is built by `get_eig_sys`. -/
theorem sq_ampl_stagflux_channel_selection (env : Env W ns d)
    (f0 : String) (fr : List String) (wav : Option String) (tol : ℚ)
    (h1 : (env.get_attr f0).sfpnxphz_wav = false)
    (h2 : (env.get_attr f0).stagflux_wav = true) :
    (∀ (hv O V : CBatch ns d) (eo : Option (Fin ns → Fin d → ℚ)),
      get_sq_ampl env (f0 :: fr) wav tol (some hv) (some O) eo (some V) =
        chanResult (env.get_attr f0).channel
          (env.stagflux_spinops (env.get_attr f0) 1)
          (env.stagflux_spinops (env.get_attr f0) 2) O V) ∧
    (∀ e : EigSys ns d, get_eig_sys env (f0 :: fr) wav tol = Except.ok e →
      get_sq_ampl env (f0 :: fr) wav tol none none none none =
        chanResult (env.get_attr f0).channel
          (env.stagflux_spinops (env.get_attr f0) 1)
          (env.stagflux_spinops (env.get_attr f0) 2) e.O e.evecs) := by
  constructor
  · intro hv O V eo
    simp [get_sq_ampl, get_sq_amplT_some, ampl_body_stagflux env _ O V h1 h2]
  · intro e he
    simp [get_sq_ampl, get_sq_amplT_none, he, Except.bind,
      ampl_body_stagflux env _ e.O e.evecs h1 h2]

/-- C9: when both `sfpnxphz_wav` and `stagflux_wav` are true, the
operator vectors come from the `sfpnxphz` module (checked first on
line 35), yet the `stagflux` channel branch is taken (checked first on
line 43), so the returned amplitudes use the `sfpnxphz` operator vector
at index 1 or 2 according to the channel — both when the eigensystem is
precomputed and when it is built by `get_eig_sys`. -/
theorem sq_ampl_both_flags_sfpnxphz_ops (env : Env W ns d)
    (f0 : String) (fr : List String) (wav : Option String) (tol : ℚ)
    (h1 : (env.get_attr f0).sfpnxphz_wav = true)
    (h2 : (env.get_attr f0).stagflux_wav = true) :
    (∀ (hv O V : CBatch ns d) (eo : Option (Fin ns → Fin d → ℚ)),
      get_sq_ampl env (f0 :: fr) wav tol (some hv) (some O) eo (some V) =
        chanResult (env.get_attr f0).channel
          (env.sfpnxphz_spinops (env.get_attr f0) 1)
          (env.sfpnxphz_spinops (env.get_attr f0) 2) O V) ∧
    (∀ e : EigSys ns d, get_eig_sys env (f0 :: fr) wav tol = Except.ok e →
      get_sq_ampl env (f0 :: fr) wav tol none none none none =
        chanResult (env.get_attr f0).channel
          (env.sfpnxphz_spinops (env.get_attr f0) 1)
          (env.sfpnxphz_spinops (env.get_attr f0) 2) e.O e.evecs) := by
  constructor
  · intro hv O V eo
    simp [get_sq_ampl, get_sq_amplT_some, ampl_body_both env _ O V h1 h2]
  · intro e he
    simp [get_sq_ampl, get_sq_amplT_none, he, Except.bind,
      ampl_body_both env _ e.O e.evecs h1 h2]

lemma ampl_body_nonneg (env : Env W ns d) (params : Attr)
    (Oo Vo : Option (CBatch ns d)) (out : SqOut ns d)
    (h : ampl_body env params Oo Vo = Except.ok out) :
    (∀ a, out = SqOut.single a → ∀ s k, 0 ≤ a s k) ∧
    (∀ t, out = SqOut.triple t → ∀ i s k, 0 ≤ t i s k) := by
  obtain ⟨O, V, _, _, hc⟩ := ampl_body_cases env params Oo Vo out h
  rcases hc with ⟨_, _, hout⟩ | ⟨_, _, hout⟩ <;> subst hout <;>
    refine ⟨?_, ?_⟩ <;> intro x hx <;> simp [SqOut.single.injEq, SqOut.triple.injEq] at hx <;>
      subst hx <;> intros <;> exact GRat.normSq_nonneg _

/-- C8: whenever `get_sq_ampl` returns, every entry of the returned
amplitude array (or of each of the three arrays of the `sfpnxphz`
family) is a nonnegative rational: each entry is the squared magnitude
`normSq` of a contraction. -/
theorem sq_ampl_entries_nonneg (env : Env W ns d) (fns : List String)
    (wav : Option String) (tol : ℚ) (Ho Oo : Option (CBatch ns d))
    (eo : Option (Fin ns → Fin d → ℚ)) (Vo : Option (CBatch ns d)) (out : SqOut ns d)
    (h : get_sq_ampl env fns wav tol Ho Oo eo Vo = Except.ok out) :
    (∀ a, out = SqOut.single a → ∀ s k, 0 ≤ a s k) ∧
    (∀ t, out = SqOut.triple t → ∀ i s k, 0 ≤ t i s k) := by
  cases fns with
  | nil =>
    cases Ho <;> simp [get_sq_ampl, get_sq_amplT, get_eig_sys, Except.bind] at h
  | cons f0 fr =>
    cases Ho with
    | none =>
      rw [get_sq_ampl, get_sq_amplT_none] at h
      cases hE : get_eig_sys env (f0 :: fr) wav tol with
      | error er => rw [hE] at h; simp [Except.bind] at h
      | ok e =>
        rw [hE] at h
        simp only [Except.bind] at h
        exact ampl_body_nonneg env _ _ _ out h
    | some hv =>
      rw [get_sq_ampl, get_sq_amplT_some] at h
      exact ampl_body_nonneg env _ _ _ out h

lemma sqAmpl_eq_specFun (p : CVec d) (O V : CBatch ns d) :
    sqAmpl p O V = fun s k => specSqAmpl p O V s k :=
  funext fun s => funext fun k => (specSqAmpl_eq_sqAmpl p O V s k).symm

lemma ampl_body_spec_out (env : Env W ns d) (params : Attr)
    (Oo Vo : Option (CBatch ns d)) (out : SqOut ns d)
    (h : ampl_body env params Oo Vo = Except.ok out) :
    ∃ O V, Oo = some O ∧ Vo = some V ∧
      (params.stagflux_wav = true →
        out = SqOut.single (fun s k => specSqAmpl
          ((if params.sfpnxphz_wav then env.sfpnxphz_spinops params
            else env.stagflux_spinops params)
           (if params.channel = "trans" then 1 else 2)) O V s k)) ∧
      (params.stagflux_wav = false →
        out = SqOut.triple (fun a s k =>
          specSqAmpl (env.sfpnxphz_spinops params a.val) O V s k)) := by
  obtain ⟨O, V, hO, hV, hc⟩ := ampl_body_cases env params Oo Vo out h
  refine ⟨O, V, hO, hV, ?_, ?_⟩
  · intro hst2
    rcases hc with ⟨hst, _, hout⟩ | ⟨hst, _, hout⟩
    · subst hout
      rw [sqAmpl_eq_specFun]
    · rw [hst] at hst2
      simp at hst2
  · intro hst2
    rcases hc with ⟨hst, _, hout⟩ | ⟨hst, _, hout⟩
    · rw [hst] at hst2
      simp at hst2
    · subst hout
      simp only [sqAmpl_eq_specFun]

/-- C1: every amplitude `get_sq_ampl` returns is the squared magnitude
of the double contraction of the conjugated selected operator vector
against the overlap batch `O` and eigenvector batch `V` in use
(`specSqAmpl`, the numeric contract of the spec), where `O` and `V` are the
precomputed batches when supplied and the ones built by `get_eig_sys`
otherwise, and the selected vector is the family/channel selection of
lines 34-52. -/
theorem sq_ampl_matches_spec_contraction (env : Env W ns d)
    (f0 : String) (fr : List String) (wav : Option String) (tol : ℚ)
    (Ho Oo : Option (CBatch ns d)) (eo : Option (Fin ns → Fin d → ℚ))
    (Vo : Option (CBatch ns d)) (out : SqOut ns d)
    (h : get_sq_ampl env (f0 :: fr) wav tol Ho Oo eo Vo = Except.ok out) :
    ∃ O V : CBatch ns d,
      ((Ho = none ∧ ∃ e, get_eig_sys env (f0 :: fr) wav tol = Except.ok e ∧
          O = e.O ∧ V = e.evecs) ∨
       (Ho ≠ none ∧ Oo = some O ∧ Vo = some V)) ∧
      ((env.get_attr f0).stagflux_wav = true →
        out = SqOut.single (fun s k => specSqAmpl
          ((if (env.get_attr f0).sfpnxphz_wav then env.sfpnxphz_spinops (env.get_attr f0)
            else env.stagflux_spinops (env.get_attr f0))
           (if (env.get_attr f0).channel = "trans" then 1 else 2)) O V s k)) ∧
      ((env.get_attr f0).stagflux_wav = false →
        out = SqOut.triple (fun a s k =>
          specSqAmpl (env.sfpnxphz_spinops (env.get_attr f0) a.val) O V s k)) := by
  cases Ho with
  | none =>
    rw [get_sq_ampl, get_sq_amplT_none] at h
    cases hE : get_eig_sys env (f0 :: fr) wav tol with
    | error er => rw [hE] at h; simp [Except.bind] at h
    | ok e =>
      rw [hE] at h
      simp only [Except.bind] at h
      obtain ⟨O, V, hO, hV, hs1, hs2⟩ := ampl_body_spec_out env _ _ _ out h
      exact ⟨O, V, Or.inl ⟨rfl, e, rfl, (Option.some.inj hO).symm,
        (Option.some.inj hV).symm⟩, hs1, hs2⟩
  | some hv =>
    rw [get_sq_ampl, get_sq_amplT_some] at h
    obtain ⟨O, V, hO, hV, hs1, hs2⟩ := ampl_body_spec_out env _ _ _ out h
    exact ⟨O, V, Or.inr ⟨by simp, hO, hV⟩, hs1, hs2⟩

theorem sign_transform_involutive_witness :
    (∀ i, fsW i = 1 ∨ fsW i = -1) ∧
    signTransform fsW (signTransform fsW bW) = bW :=
  ⟨fun _ => Or.inr rfl,
   sign_transform_involutive fsW bW (fun _ => Or.inr rfl)⟩

theorem sq_ampl_neither_flag_witness :
    (env0.get_attr "f").sfpnxphz_wav = false ∧
    (env0.get_attr "f").stagflux_wav = false ∧
    ((get_sq_amplT env0 ["f"] (some "w") 0 none none none none =
        (true, (get_eig_sys env0 ["f"] (some "w") 0).bind
          fun e => Except.error Err.unimplementedWav)) ∧
     (∀ hv : CBatch 1 1,
        get_sq_amplT env0 ["f"] (some "w") 0 (some hv) none none none =
          (false, Except.error Err.unimplementedWav))) :=
  ⟨rfl, rfl,
   sq_ampl_neither_flag_raises_after_eig env0 "f" [] (some "w") 0 none none none rfl rfl⟩

theorem sq_ampl_precomputed_identical_witness :
    get_eig_sys env1 ["f"] (some "w") 0 = Except.ok e1 ∧
    get_sq_ampl env1 ["f"] (some "w") 0 none none none none = Except.ok out1 ∧
    get_sq_amplT env1 ["f"] (some "w") 0
      (some e1.H) (some e1.O) (some e1.evals) (some e1.evecs) = (false, Except.ok out1) :=
  ⟨rfl, rfl,
   sq_ampl_precomputed_identical env1 "f" [] (some "w") 0 e1 out1 rfl rfl⟩

theorem sq_ampl_stagflux_channel_witness :
    (env1.get_attr "f").sfpnxphz_wav = false ∧
    (env1.get_attr "f").stagflux_wav = true ∧
    ((∀ (hv O V : CBatch 1 1) (eo : Option (Fin 1 → Fin 1 → ℚ)),
        get_sq_ampl env1 ["f"] (some "w") 0 (some hv) (some O) eo (some V) =
          chanResult (env1.get_attr "f").channel
            (env1.stagflux_spinops (env1.get_attr "f") 1)
            (env1.stagflux_spinops (env1.get_attr "f") 2) O V) ∧
     (∀ e : EigSys 1 1, get_eig_sys env1 ["f"] (some "w") 0 = Except.ok e →
        get_sq_ampl env1 ["f"] (some "w") 0 none none none none =
          chanResult (env1.get_attr "f").channel
            (env1.stagflux_spinops (env1.get_attr "f") 1)
            (env1.stagflux_spinops (env1.get_attr "f") 2) e.O e.evecs)) :=
  ⟨rfl, rfl,
   sq_ampl_stagflux_channel_selection env1 "f" [] (some "w") 0 rfl rfl⟩

theorem sq_ampl_both_flags_witness :
    (env3.get_attr "f").sfpnxphz_wav = true ∧
    (env3.get_attr "f").stagflux_wav = true ∧
    ((∀ (hv O V : CBatch 1 1) (eo : Option (Fin 1 → Fin 1 → ℚ)),
        get_sq_ampl env3 ["f"] (some "w") 0 (some hv) (some O) eo (some V) =
          chanResult (env3.get_attr "f").channel
            (env3.sfpnxphz_spinops (env3.get_attr "f") 1)
            (env3.sfpnxphz_spinops (env3.get_attr "f") 2) O V) ∧
     (∀ e : EigSys 1 1, get_eig_sys env3 ["f"] (some "w") 0 = Except.ok e →
        get_sq_ampl env3 ["f"] (some "w") 0 none none none none =
          chanResult (env3.get_attr "f").channel
            (env3.sfpnxphz_spinops (env3.get_attr "f") 1)
            (env3.sfpnxphz_spinops (env3.get_attr "f") 2) e.O e.evecs)) :=
  ⟨rfl, rfl,
   sq_ampl_both_flags_sfpnxphz_ops env3 "f" [] (some "w") 0 rfl rfl⟩

theorem eig_sys_split_halves_witness :
    get_eig_sys env1 ["f"] (some "w") 0 = Except.ok e1 ∧
    ((∀ (s : Fin 1) (i j : Fin 1),
        splitH (env1.get_quantity ["f"]) s i j =
          env1.get_quantity ["f"] s
            ⟨i.val, Nat.lt_of_lt_of_le i.isLt (Nat.le_add_right 1 1)⟩ j) ∧
     (∀ (s : Fin 1) (i j : Fin 1),
        splitO (env1.get_quantity ["f"]) s i j =
          env1.get_quantity ["f"] s ⟨1 + i.val, Nat.add_lt_add_left i.isLt 1⟩ j) ∧
     (∃ fs : CVec 1,
        e1.H = signTransform fs (splitH (env1.get_quantity ["f"])) ∧
        e1.O = signTransform fs (splitO (env1.get_quantity ["f"])))) :=
  ⟨rfl, eig_sys_split_halves env1 "f" [] (some "w") 0 e1 rfl⟩

theorem deriveWav_search_amended_witness :
    dsW ≠ [] ∧ (∀ c ∈ dsW, c.isDigit = true) ∧ (∀ c ∈ pW, c ≠ '\n') ∧
    (deriveWav (String.mk (pW ++ '/' :: (dsW ++ litP))) =
       some (String.mk ((pW ++ '/' :: dsW) ++ wavLit)) ∧
     get_eig_sys env0 (String.mk (pW ++ '/' :: (dsW ++ litP)) :: []) none 0 =
       get_eig_sys env0 (String.mk (pW ++ '/' :: (dsW ++ litP)) :: [])
         (some (String.mk ((pW ++ '/' :: dsW) ++ wavLit))) 0 ∧
     (∀ (g0 : String) (fns0 : List String), deriveWav g0 = none →
       get_eig_sys env0 (g0 :: fns0) none 0 = Except.error Err.patternMismatch)) :=
  ⟨by decide, by decide, by decide,
   deriveWav_search_amended env0 [] 0 pW dsW (by decide) (by decide) (by decide)⟩

theorem sq_ampl_entries_nonneg_witness :
    get_sq_ampl env1 ["f"] (some "w") 0 none none none none = Except.ok out1 ∧
    ((∀ a, out1 = SqOut.single a → ∀ s k, 0 ≤ a s k) ∧
     (∀ t, out1 = SqOut.triple t → ∀ i s k, 0 ≤ t i s k)) :=
  ⟨rfl,
   sq_ampl_entries_nonneg env1 ["f"] (some "w") 0 none none none none out1 rfl⟩

theorem sq_ampl_matches_spec_witness :
    get_sq_ampl env1 ["f"] (some "w") 0 none none none none = Except.ok out1 ∧
    (∃ O V : CBatch 1 1,
      (((none : Option (CBatch 1 1)) = none ∧
        ∃ e, get_eig_sys env1 ["f"] (some "w") 0 = Except.ok e ∧
          O = e.O ∧ V = e.evecs) ∨
       ((none : Option (CBatch 1 1)) ≠ none ∧
        (none : Option (CBatch 1 1)) = some O ∧
        (none : Option (CBatch 1 1)) = some V)) ∧
      ((env1.get_attr "f").stagflux_wav = true →
        out1 = SqOut.single (fun s k => specSqAmpl
          ((if (env1.get_attr "f").sfpnxphz_wav
            then env1.sfpnxphz_spinops (env1.get_attr "f")
            else env1.stagflux_spinops (env1.get_attr "f"))
           (if (env1.get_attr "f").channel = "trans" then 1 else 2)) O V s k)) ∧
      ((env1.get_attr "f").stagflux_wav = false →
        out1 = SqOut.triple (fun a s k =>
          specSqAmpl (env1.sfpnxphz_spinops (env1.get_attr "f") a.val) O V s k))) :=
  ⟨rfl,
   sq_ampl_matches_spec_contraction env1 "f" [] (some "w") 0 none none none none out1 rfl⟩
